import Mathlib

/-!
Verification of the LogFlux C SDK (`logflux_client.c` / `logflux_client.h`)
against its natural-language specification.

The SDK is embedded shallowly:

* C strings become `String` (no interior NUL bytes are modelled; the
  snprintf byte-level truncation becomes character-level truncation, which
  agrees with the source on ASCII data).
* Enum values stored in `int` fields (`logflux_level_t`, `logflux_entry_type_t`)
  become `Int`, matching the `%d` rendering used by the encoder.
* Nullable pointers become `Option`.
* Environmental effects (the operating system's socket calls, the
  filesystem secret lookup, `malloc` outcomes where a claim depends on
  them, the wall clock) become explicit oracle parameters.  Where no claim
  depends on an allocation outcome the allocation is modelled as
  succeeding.
* The bytes handed to `send(2)` are collected in a trace list, so that
  "performs no I/O" is the trace being empty.
-/

namespace LogFlux

/-- `logflux_error_t` from `logflux_client.h` (values 0, -1 .. -6). -/
inductive LError where
  | ok
  | invalidParam
  | memory
  | connection
  | timeout
  | format
  | notConnected
deriving DecidableEq, Repr

/-- `logflux_connection_type_t`: `LOGFLUX_CONN_UNIX = 0`, `LOGFLUX_CONN_TCP = 1`. -/
inductive ConnType where
  | unix
  | tcp
deriving DecidableEq, Repr

/-- `logflux_config_t`.  The C struct holds fixed-size char arrays
(`socket_path[256]`, `host[256]`, `shared_secret[128]`); the strings stored
here are the NUL-terminated contents of those arrays. -/
structure Config where
  connection_type : ConnType
  socket_path : String
  host : String
  port : Nat
  shared_secret : String
  timeout_ms : Nat
  retry_count : Nat
  retry_delay_ms : Nat
deriving DecidableEq, Repr

/-- `struct logflux_entry` in its valid (fully allocated) states.  The
parallel `keys`/`values` arrays are modelled as one list of pairs in
insertion order; `count` is the list length. -/
structure Entry where
  id : String
  message : String
  source : String
  level : Int
  type : Int
  timestamp : Int
  labels : List (String × String)
deriving DecidableEq, Repr

/-- `struct logflux_client`. -/
structure Client where
  config : Config
  socket_fd : Int
  connected : Bool
deriving DecidableEq, Repr

/-! ### The wire encoder (`entry_to_json`) -/

/-- `buffer_size` in `entry_to_json`. -/
def bufCap : Nat := 4096

/-- Character-level truncation, modelling how `snprintf` cuts off what does
not fit in the remaining buffer space. -/
def strTake (s : String) (n : Nat) : String := ⟨s.data.take n⟩

/-- The state threaded through `entry_to_json`'s snprintf calls: `data` is
the NUL-terminated buffer contents, `len` is the accumulated sum of
snprintf return values (each the length the output would have had). -/
structure WBuf where
  data : String
  len : Nat
deriving DecidableEq, Repr

/-- One `len += snprintf(json + len, buffer_size - len, ...)` step writing
the text `s`.  While `len < buffer_size` the write lands at offset `len`
and keeps at most `buffer_size - 1 - len` characters (snprintf reserves one
byte for NUL).  Once `len` has passed the buffer size the C code's further
writes are out of bounds (`buffer_size - len` underflows as `size_t`),
which is undefined behaviour; the model drops such writes, which also
covers the defined `len = buffer_size` case where the size argument is 0. -/
def wwrite (b : WBuf) (s : String) : WBuf :=
  if b.len < bufCap then
    ⟨b.data ++ strTake s (bufCap - 1 - b.len), b.len + s.length⟩
  else
    ⟨b.data, b.len + s.length⟩

/-- The first snprintf of `entry_to_json`: the six mandatory fields in
fixed key order, enums and timestamp rendered as decimal integers. -/
def jsonHead (e : Entry) : String :=
  "\x7b\x22id\x22:\x22" ++ e.id ++
  "\x22,\x22message\x22:\x22" ++ e.message ++
  "\x22,\x22source\x22:\x22" ++ e.source ++
  "\x22,\x22entry_type\x22:" ++ toString e.type ++
  ",\x22level\x22:" ++ toString e.level ++
  ",\x22timestamp\x22:" ++ toString e.timestamp

/-- One label pair as written by the loop body of `entry_to_json`. -/
def renderPair (k v : String) : String :=
  "\x22" ++ k ++ "\x22:\x22" ++ v ++ "\x22"

/-- The label loop of `entry_to_json`: a comma before every pair except
the one at index 0. -/
def writeLabels : WBuf → List (String × String) → Nat → WBuf
  | b, [], _ => b
  | b, (k, v) :: rest, i =>
    let b1 := if 0 < i then wwrite b "," else b
    let b2 := wwrite b1 (renderPair k v)
    writeLabels b2 rest (i + 1)

/-- The `shared_secret` block of `entry_to_json`: runs when the pointer is
non-NULL and `strlen` is positive. -/
def encodeSecret (b : WBuf) : Option String → WBuf
  | some s =>
    if 0 < s.length then
      wwrite b (",\x22shared_secret\x22:\x22" ++ s ++ "\x22")
    else b
  | none => b

/-- The `labels` block of `entry_to_json`: runs when `labels.count > 0`. -/
def encodeLabels (b : WBuf) (ls : List (String × String)) : WBuf :=
  if 0 < ls.length then
    wwrite (writeLabels (wwrite b ",\x22labels\x22:\x7b") ls 0) "\x7d"
  else b

/-- `entry_to_json(entry, shared_secret)`: the head snprintf, the two
conditional blocks, the closing brace.  The C function returns NULL
exactly when `malloc(4096)` fails; that allocation is environmental and
modelled as succeeding, so the result is always `some`. -/
def entry_to_json (e : Entry) (shared_secret : Option String) : Option String :=
  some (wwrite
    (encodeLabels (encodeSecret (wwrite ⟨"", 0⟩ (jsonHead e)) shared_secret) e.labels)
    "\x7d").data

/-! ### Declarative rendering of the wire format (the spec's contract) -/

/-- The conditional `shared_secret` fragment: present iff a non-empty
secret was supplied. -/
def secretField : Option String → String
  | some s => if s = "" then "" else ",\x22shared_secret\x22:\x22" ++ s ++ "\x22"
  | none => ""

/-- The label pairs comma-separated in insertion order, duplicates kept
verbatim. -/
def renderLabels : List (String × String) → String
  | [] => ""
  | [(k, v)] => renderPair k v
  | (k, v) :: rest => renderPair k v ++ "," ++ renderLabels rest

/-- The conditional `labels` fragment: present iff at least one label
exists. -/
def labelsField (ls : List (String × String)) : String :=
  if ls = [] then "" else ",\x22labels\x22:\x7b" ++ renderLabels ls ++ "\x7d"

/-- The complete JSON object the encoder aims to produce: the fixed-order
head, then the two conditional fragments, then the closing brace. -/
def jsonFull (e : Entry) (s : Option String) : String :=
  jsonHead e ++ secretField s ++ labelsField e.labels ++ "\x7d"

/-! ### Client facade -/

/-- The secret selection in `logflux_client_send_entry`: the configured
secret for TCP, NULL for Unix. -/
def entrySecret (cfg : Config) : Option String :=
  if cfg.connection_type = ConnType.tcp then some cfg.shared_secret else none

/-- `logflux_client_send_entry(client, entry)`.  `io` is the transport
oracle: applied to the newline-delimited payload it tells whether
`send(2)` accepted the full buffer in one call (`send_json_data` maps a
short or failed write to `LOGFLUX_ERROR_CONNECTION`).  The second
component is the trace of payloads handed to the socket. -/
def logflux_client_send_entry (client : Option Client) (entry : Option Entry)
    (io : String → Bool) : LError × List String :=
  match client, entry with
  | none, _ => (.invalidParam, [])
  | some _, none => (.invalidParam, [])
  | some c, some e =>
    if c.connected = false then (.notConnected, [])
    else
      match entry_to_json e (entrySecret c.config) with
      | none => (.memory, [])
      | some json =>
        let data := json ++ "\n"
        (if io data then .ok else .connection, [data])

/-- The loop of `logflux_client_send_batch`: one `send_entry` per array
element in order, returning the first failure. -/
def sendBatchLoop (c : Client) (io : String → Bool) : List Entry → LError × List String
  | [] => (.ok, [])
  | e :: rest =>
    let r := logflux_client_send_entry (some c) (some e) io
    if r.1 = LError.ok then
      let rr := sendBatchLoop c io rest
      (rr.1, r.2 ++ rr.2)
    else r

/-- `logflux_client_send_batch(client, entries, count)`; the entries
pointer plus count become an optional list whose length is `count`. -/
def logflux_client_send_batch (client : Option Client) (entries : Option (List Entry))
    (io : String → Bool) : LError × List String :=
  match client, entries with
  | none, _ => (.invalidParam, [])
  | some _, none => (.invalidParam, [])
  | some c, some es =>
    if es.length = 0 then (.invalidParam, [])
    else if c.connected = false then (.notConnected, [])
    else sendBatchLoop c io es

/-- The outcome of `connect_unix_socket` / `connect_tcp_socket`, which is
decided by the operating system (socket creation, timeout installation,
address resolution, connect). -/
structure NetOracle where
  res : LError
  fd : Int
deriving DecidableEq, Repr

/-- `logflux_client_connect(client)`: an already-connected client returns
`LOGFLUX_OK` at once; otherwise the transport-specific helper runs and on
success the client is marked connected with the new descriptor, on failure
the helper has closed the socket and reset the descriptor to -1. -/
def logflux_client_connect (client : Option Client) (os : NetOracle) :
    LError × Option Client :=
  match client with
  | none => (.invalidParam, none)
  | some c =>
    if c.connected then (.ok, some c)
    else if os.res = LError.ok then
      (.ok, some { c with socket_fd := os.fd, connected := true })
    else (os.res, some { c with socket_fd := -1 })

/-- `strncpy(dst, src, sizeof(dst) - 1)` into a zeroed 256-byte array:
at most 255 characters of `src` are kept. -/
def strncpy255 (s : String) : String := strTake s 255

/-- `logflux_client_new_unix(socket_path)`.  `calloc` is modelled as
succeeding; the zeroed struct supplies the empty host/secret and port 0. -/
def logflux_client_new_unix (socket_path : Option String) : Option Client :=
  match socket_path with
  | none => none
  | some p =>
    some { config := { connection_type := ConnType.unix, socket_path := strncpy255 p,
                       host := "", port := 0, shared_secret := "",
                       timeout_ms := 10000, retry_count := 3, retry_delay_ms := 1000 },
           socket_fd := -1, connected := false }

/-- `logflux_client_new_tcp(host, port)`.  `loadedSecret` is the content
`logflux_load_shared_secret` left in the zeroed 128-byte secret buffer
(the empty string when the filesystem lookup fails, since the return value
is ignored). -/
def logflux_client_new_tcp (host : Option String) (port : Nat) (loadedSecret : String) :
    Option Client :=
  match host with
  | none => none
  | some h =>
    if port = 0 then none
    else
      some { config := { connection_type := ConnType.tcp, socket_path := "",
                         host := strncpy255 h, port := port, shared_secret := loadedSecret,
                         timeout_ms := 10000, retry_count := 3, retry_delay_ms := 1000 },
             socket_fd := -1, connected := false }

/-- `logflux_client_new_config(config)`: one `memcpy` of the supplied
configuration, descriptor -1, not connected; no defaulting, no secret
lookup. -/
def logflux_client_new_config (config : Option Config) : Option Client :=
  match config with
  | none => none
  | some cfg => some { config := cfg, socket_fd := -1, connected := false }

/-! ### Entry construction and mutation -/

/-- The allocations performed by `logflux_entry_new`: the `calloc` of the
struct, `generate_uuid` (whose `malloc(37)` may fail, otherwise yielding
the rendered uuid), and the two `strdup` calls. -/
structure EntryAlloc where
  calloc_ok : Bool
  uuid : Option String
  msg_ok : Bool
  src_ok : Bool
deriving DecidableEq, Repr

/-- `logflux_entry_new(message)`; `now` is the `time(NULL)` reading.  A
NULL message or any failed allocation yields NULL (the partially filled
struct is released with `logflux_entry_free` before returning). -/
def logflux_entry_new (message : Option String) (a : EntryAlloc) (now : Int) :
    Option Entry :=
  match message with
  | none => none
  | some m =>
    if a.calloc_ok = false then none
    else
      match a.uuid with
      | none => none
      | some u =>
        if a.msg_ok && a.src_ok then
          some { id := u, message := m, source := "c-sdk", level := 6, type := 1,
                 timestamp := now, labels := [] }
        else none

/-- `logflux_entry_set_level(entry, level)`: rejects a NULL entry and any
value outside `LOGFLUX_LEVEL_EMERGENCY = 0 .. LOGFLUX_LEVEL_DEBUG = 7`. -/
def logflux_entry_set_level (entry : Option Entry) (level : Int) :
    LError × Option Entry :=
  match entry with
  | none => (.invalidParam, none)
  | some e =>
    if level < 0 ∨ 7 < level then (.invalidParam, some e)
    else (.ok, some { e with level := level })

/-! ### `logflux_entry_add_label` with array liveness

For this operation the parallel label arrays are modelled with their heap
liveness: a component is `none` when the pointer stored in the entry no
longer refers to a live allocation (dangling).  `realloc` on success
frees the old block and returns a moved block with the same contents; on
failure it leaves the old block untouched and returns NULL. -/

structure LabelsState where
  keys : Option (List String)
  values : Option (List String)
  count : Nat
  capacity : Nat
deriving DecidableEq, Repr

/-- The allocations performed by `logflux_entry_add_label`: the two
`realloc` calls of the growth path and the two `strdup` calls. -/
structure AddAlloc where
  keys_realloc_ok : Bool
  values_realloc_ok : Bool
  key_strdup_ok : Bool
  value_strdup_ok : Bool
deriving DecidableEq, Repr

/-- The tail of `logflux_entry_add_label` after the growth check: strdup
the key and the value, on any failure free both copies and return
`LOGFLUX_ERROR_MEMORY` leaving the arrays as they were, otherwise store
the copies at index `count` and increment `count`. -/
def addLabelCopies (st : LabelsState) (k v : String) (a : AddAlloc) :
    LError × Option LabelsState :=
  if a.key_strdup_ok && a.value_strdup_ok then
    (.ok, some { st with keys := st.keys.map (fun l => l ++ [k]),
                         values := st.values.map (fun l => l ++ [v]),
                         count := st.count + 1 })
  else (.memory, some st)

/-- `logflux_entry_add_label(entry, key, value)`.  On the growth path the
code calls `realloc` on both arrays; if at least one call fails it does
`free(new_keys); free(new_values)` and returns `LOGFLUX_ERROR_MEMORY` —
but for an array whose `realloc` succeeded the old block was already
released by `realloc` and this `free` releases the moved block too, so the
pointer still stored in the entry dangles (`none`). -/
def logflux_entry_add_label (entry : Option LabelsState) (key value : Option String)
    (a : AddAlloc) : LError × Option LabelsState :=
  match entry, key, value with
  | none, _, _ => (.invalidParam, none)
  | some st, none, _ => (.invalidParam, some st)
  | some st, some _, none => (.invalidParam, some st)
  | some st, some k, some v =>
    if st.capacity ≤ st.count then
      let newCap := if st.capacity = 0 then 4 else st.capacity * 2
      if a.keys_realloc_ok && a.values_realloc_ok then
        addLabelCopies { st with capacity := newCap } k v a
      else
        (.memory, some { st with
          keys := if a.keys_realloc_ok then none else st.keys,
          values := if a.values_realloc_ok then none else st.values })
    else addLabelCopies st k v a

/-! ### String helper lemmas -/

theorem strTake_data (s : String) (n : Nat) : (strTake s n).data = s.data.take n := rfl

theorem strTake_of_length_le {s : String} {n : Nat} (h : s.length ≤ n) :
    strTake s n = s :=
  String.ext (List.take_of_length_le h)

theorem strTake_length (s : String) (n : Nat) :
    (strTake s n).length = min n s.length :=
  List.length_take n s.data

theorem strLength_eq_zero_iff (s : String) : s.length = 0 ↔ s = "" := by
  constructor
  · intro h
    exact String.ext (List.eq_nil_of_length_eq_zero h)
  · intro h
    subst h
    rfl

theorem strApp3_ne_empty (a b c : String) (h : 0 < a.length) : a ++ b ++ c ≠ "" := by
  intro hc
  have hlen := congrArg String.length hc
  simp only [String.length_append] at hlen
  have hz : ("" : String).length = 0 := rfl
  omega

/-! ### The buffer invariant threaded through the encoder -/

/-- The buffer built by the snprintf chain holds the first 4095 characters
of the text `pre` written so far, and `len` is the full length of that
text. -/
def EncInv (pre : String) (b : WBuf) : Prop :=
  b.data = strTake pre 4095 ∧ b.len = pre.length

theorem encInv_init : EncInv "" ⟨"", 0⟩ := by
  constructor
  · apply String.ext
    simp [strTake]
  · rfl

theorem encInv_wwrite {pre : String} {b : WBuf} (s : String) (h : EncInv pre b) :
    EncInv (pre ++ s) (wwrite b s) := by
  obtain ⟨hd, hl⟩ := h
  unfold wwrite
  by_cases hlt : b.len < bufCap
  · rw [if_pos hlt]
    have hple : pre.length ≤ 4095 := by
      have : b.len < 4096 := hlt
      omega
    constructor
    · apply String.ext
      rw [String.data_append, hd, strTake_data, strTake_data, strTake_data,
        String.data_append, List.take_append_eq_append_take,
        List.take_of_length_le (show pre.data.length ≤ 4095 from hple)]
      have harg : bufCap - 1 - b.len = 4095 - pre.data.length := by
        simp only [bufCap, hl]
        rfl
      rw [harg]
    · simp only [String.length_append, hl]
  · rw [if_neg hlt]
    have hge : 4095 ≤ pre.length := by
      have : 4096 ≤ b.len := Nat.le_of_not_lt hlt
      omega
    constructor
    · rw [hd]
      apply String.ext
      rw [strTake_data, strTake_data, String.data_append,
        List.take_append_of_le_length (show 4095 ≤ pre.data.length from hge)]
    · simp only [String.length_append, hl]

/-- The text the label loop writes when started at index `i`. -/
def labelsAux : List (String × String) → Nat → String
  | [], _ => ""
  | (k, v) :: rest, i =>
    (if 0 < i then "," else "") ++ renderPair k v ++ labelsAux rest (i + 1)

theorem encInv_writeLabels (ls : List (String × String)) :
    ∀ (i : Nat) {pre : String} {b : WBuf}, EncInv pre b →
      EncInv (pre ++ labelsAux ls i) (writeLabels b ls i) := by
  induction ls with
  | nil =>
    intro i pre b h
    simpa [writeLabels, labelsAux, String.append_empty] using h
  | cons kv rest ih =>
    intro i pre b h
    obtain ⟨k, v⟩ := kv
    have h1 : EncInv (pre ++ (if 0 < i then "," else ""))
        (if 0 < i then wwrite b "," else b) := by
      by_cases hi : 0 < i
      · rw [if_pos hi, if_pos hi]
        exact encInv_wwrite "," h
      · rw [if_neg hi, if_neg hi, String.append_empty]
        exact h
    have h2 := encInv_wwrite (renderPair k v) h1
    have h3 := ih (i + 1) h2
    simp only [writeLabels, labelsAux]
    simpa [String.append_assoc] using h3

theorem encInv_encodeSecret {pre : String} {b : WBuf} (s : Option String)
    (h : EncInv pre b) : EncInv (pre ++ secretField s) (encodeSecret b s) := by
  cases s with
  | none =>
    simpa [encodeSecret, secretField, String.append_empty] using h
  | some sec =>
    by_cases hsec : 0 < sec.length
    · have hne : sec ≠ "" := by
        intro hemp
        rw [hemp] at hsec
        exact absurd hsec (by decide)
      simp only [encodeSecret, if_pos hsec, secretField, if_neg hne]
      exact encInv_wwrite _ h
    · have heq : sec = "" := (strLength_eq_zero_iff sec).mp (by omega)
      subst heq
      simpa [encodeSecret, secretField, String.append_empty] using h

theorem labelsAux_one (ls : List (String × String)) :
    ∀ i : Nat, ls ≠ [] → labelsAux ls (i + 1) = "," ++ renderLabels ls := by
  induction ls with
  | nil =>
    intro i h
    exact absurd rfl h
  | cons kv rest ih =>
    intro i _
    obtain ⟨k, v⟩ := kv
    cases rest with
    | nil =>
      simp [labelsAux, renderLabels, String.append_assoc, String.append_empty]
    | cons kv2 rest2 =>
      obtain ⟨k2, v2⟩ := kv2
      rw [labelsAux, ih (i + 1) (by simp)]
      simp [renderLabels, String.append_assoc]

theorem labelsAux_zero (ls : List (String × String)) :
    labelsAux ls 0 = renderLabels ls := by
  cases ls with
  | nil => rfl
  | cons kv rest =>
    obtain ⟨k, v⟩ := kv
    cases rest with
    | nil =>
      simp [labelsAux, renderLabels, String.append_empty, String.empty_append]
    | cons kv2 rest2 =>
      obtain ⟨k2, v2⟩ := kv2
      rw [labelsAux, labelsAux_one _ 0 (by simp)]
      simp [renderLabels, String.append_assoc, String.empty_append]

theorem encInv_encodeLabels {pre : String} {b : WBuf} (ls : List (String × String))
    (h : EncInv pre b) : EncInv (pre ++ labelsField ls) (encodeLabels b ls) := by
  by_cases hl : 0 < ls.length
  · have hne : ls ≠ [] := List.ne_nil_of_length_pos hl
    have h1 := encInv_wwrite ",\x22labels\x22:\x7b" h
    have h2 := encInv_writeLabels ls 0 h1
    rw [labelsAux_zero] at h2
    have h3 := encInv_wwrite "\x7d" h2
    simp only [encodeLabels, if_pos hl, labelsField, if_neg hne]
    simpa [String.append_assoc] using h3
  · have hnil : ls = [] := List.eq_nil_of_length_eq_zero (by omega)
    subst hnil
    simpa [encodeLabels, labelsField, String.append_empty] using h

/-- Master lemma: the encoder emits the declarative rendering truncated to
the 4095 characters that fit in the 4096-byte buffer. -/
theorem entry_to_json_eq_take (e : Entry) (s : Option String) :
    entry_to_json e s = some (strTake (jsonFull e s) 4095) := by
  have h1 : EncInv ("" ++ jsonHead e) (wwrite ⟨"", 0⟩ (jsonHead e)) :=
    encInv_wwrite (jsonHead e) encInv_init
  rw [String.empty_append] at h1
  have h2 := encInv_encodeSecret s h1
  have h3 := encInv_encodeLabels e.labels h2
  have h4 := encInv_wwrite "\x7d" h3
  unfold entry_to_json jsonFull
  rw [h4.1]

/-- When the rendering fits in the buffer the encoder emits it exactly. -/
theorem entry_to_json_fits (e : Entry) (s : Option String)
    (h : (jsonFull e s).length ≤ 4095) :
    entry_to_json e s = some (jsonFull e s) := by
  rw [entry_to_json_eq_take, strTake_of_length_le h]

/-! ### Facade-level helper lemmas -/

theorem secretField_entrySecret (cfg : Config) :
    secretField (entrySecret cfg) ≠ "" ↔
      (cfg.connection_type = ConnType.tcp ∧ cfg.shared_secret ≠ "") := by
  unfold entrySecret
  by_cases hc : cfg.connection_type = ConnType.tcp
  · rw [if_pos hc]
    by_cases hs : cfg.shared_secret = ""
    · simp [secretField, hs]
    · simp only [secretField, if_neg hs]
      constructor
      · intro _
        exact ⟨hc, hs⟩
      · intro _
        exact strApp3_ne_empty _ _ _ (by decide)
  · rw [if_neg hc]
    simp [secretField, hc]

theorem labelsField_ne_empty_iff (ls : List (String × String)) :
    labelsField ls ≠ "" ↔ ls ≠ [] := by
  by_cases h : ls = []
  · simp [labelsField, h]
  · simp only [labelsField, if_neg h]
    constructor
    · intro _
      exact h
    · intro _
      exact strApp3_ne_empty _ _ _ (by decide)

/-- A connected client's `send_entry`: one payload, newline-delimited, and
the error reflects whether the single send accepted the whole buffer. -/
theorem send_entry_trace (c : Client) (e : Entry) (io : String → Bool)
    (hconn : c.connected = true)
    (hfit : (jsonFull e (entrySecret c.config)).length ≤ 4095) :
    logflux_client_send_entry (some c) (some e) io
      = (if io (jsonFull e (entrySecret c.config) ++ "\n") then LError.ok
          else LError.connection,
         [jsonFull e (entrySecret c.config) ++ "\n"]) := by
  show (if c.connected = false then (LError.notConnected, ([] : List String))
        else match entry_to_json e (entrySecret c.config) with
          | none => (LError.memory, [])
          | some json =>
            (if io (json ++ "\n") then LError.ok else LError.connection, [json ++ "\n"]))
      = _
  rw [hconn, entry_to_json_fits e _ hfit]
  simp

/-- The batch loop when every entry sends successfully. -/
theorem sendBatchLoop_ok (c : Client) (io : String → Bool) :
    ∀ es : List Entry,
      (∀ e ∈ es, (logflux_client_send_entry (some c) (some e) io).1 = LError.ok) →
      sendBatchLoop c io es
        = (LError.ok,
           es.flatMap fun e => (logflux_client_send_entry (some c) (some e) io).2) := by
  intro es
  induction es with
  | nil =>
    intro _
    rfl
  | cons e rest ih =>
    intro h
    have h0 := h e (by simp)
    simp only [sendBatchLoop, if_pos h0]
    rw [ih (fun x hx => h x (by simp [hx]))]
    simp

/-- The batch loop stops at the first failing entry: its error is
returned, only the entries up to and including it are handed to
`send_entry`. -/
theorem sendBatchLoop_fail (c : Client) (io : String → Bool) :
    ∀ (es : List Entry) (k : Nat) (hk : k < es.length),
      (∀ e ∈ es.take k, (logflux_client_send_entry (some c) (some e) io).1 = LError.ok) →
      (logflux_client_send_entry (some c) (some (es.get ⟨k, hk⟩)) io).1 ≠ LError.ok →
      sendBatchLoop c io es
        = ((logflux_client_send_entry (some c) (some (es.get ⟨k, hk⟩)) io).1,
           (es.take (k + 1)).flatMap
             fun e => (logflux_client_send_entry (some c) (some e) io).2) := by
  intro es
  induction es with
  | nil =>
    intro k hk
    exact absurd hk (by simp)
  | cons e rest ih =>
    intro k hk hprev hfail
    cases k with
    | zero =>
      simp only [List.get] at hfail ⊢
      simp only [sendBatchLoop, if_neg hfail]
      simp
    | succ k2 =>
      have h0 : (logflux_client_send_entry (some c) (some e) io).1 = LError.ok :=
        hprev e (by simp)
      have hk2 : k2 < rest.length := by
        simp at hk
        omega
      simp only [List.get] at hfail ⊢
      simp only [sendBatchLoop, if_pos h0]
      rw [ih k2 hk2 (fun x hx => hprev x (by simp [hx])) hfail]
      simp

/-! ### The claims -/

/-- Sample entry with a duplicate label key. -/
def eW : Entry :=
  ⟨"uid-1234", "hello", "c-sdk", 6, 1, 1700000000, [("a", "1"), ("a", "2")]⟩

/-- Sample connected TCP client with a configured secret. -/
def cTcp : Client :=
  ⟨⟨ConnType.tcp, "", "127.0.0.1", 8080, "tok", 10000, 3, 1000⟩, 5, true⟩

/-- Sample unconnected Unix client. -/
def cUnx : Client :=
  ⟨⟨ConnType.unix, "/tmp/agent.sock", "", 0, "", 10000, 3, 1000⟩, -1, false⟩

/-- Claim C1: for every entry and optional secret the wire encoder emits a
single JSON object with keys in the fixed order id, message, source,
entry_type, level, timestamp (integers for the enums and the seconds);
`shared_secret` follows iff a non-empty secret was supplied, which happens
iff the connection type is TCP with a non-empty configured secret and
never for Unix; `labels` follows iff the entry has at least one label,
rendered as a nested object of the pairs in insertion order with
duplicates kept verbatim (the rendering `renderLabels`). -/
theorem claim_C1 (c : Client) (e : Entry) (io : String → Bool)
    (hconn : c.connected = true)
    (hfit : (jsonFull e (entrySecret c.config)).length ≤ 4095) :
    (logflux_client_send_entry (some c) (some e) io).2
        = [jsonFull e (entrySecret c.config) ++ "\n"]
    ∧ jsonFull e (entrySecret c.config)
        = jsonHead e ++ secretField (entrySecret c.config)
            ++ labelsField e.labels ++ "\x7d"
    ∧ (secretField (entrySecret c.config) ≠ ""
        ↔ (c.config.connection_type = ConnType.tcp ∧ c.config.shared_secret ≠ ""))
    ∧ (labelsField e.labels ≠ "" ↔ e.labels ≠ []) := by
  refine ⟨?_, rfl, secretField_entrySecret c.config, labelsField_ne_empty_iff e.labels⟩
  rw [send_entry_trace c e io hconn hfit]

set_option maxRecDepth 40000 in
theorem claim_C1_witness :
    (logflux_client_send_entry (some cTcp) (some eW) (fun _ => true)).2
        = [jsonFull eW (entrySecret cTcp.config) ++ "\n"]
    ∧ jsonFull eW (entrySecret cTcp.config)
        = jsonHead eW ++ secretField (entrySecret cTcp.config)
            ++ labelsField eW.labels ++ "\x7d"
    ∧ (secretField (entrySecret cTcp.config) ≠ ""
        ↔ (cTcp.config.connection_type = ConnType.tcp ∧ cTcp.config.shared_secret ≠ ""))
    ∧ (labelsField eW.labels ≠ "" ↔ eW.labels ≠ []) :=
  claim_C1 cTcp eW (fun _ => true) rfl (by decide)

/-- A message long enough that the encoded entry exceeds the 4096-byte
buffer. -/
def bigMsg : String := String.mk (List.replicate 4100 'a')

/-- An entry whose encoding does not fit in the encoder's buffer. -/
def bigE : Entry := ⟨"uid-1234", bigMsg, "c-sdk", 6, 1, 0, []⟩

/-- The big entry's rendering exceeds what fits in the buffer. -/
theorem big_overflow : 4095 < (jsonFull bigE none).length := by
  have hjf : jsonFull bigE none
      = jsonHead bigE ++ secretField none ++ labelsField bigE.labels ++ "\x7d" := rfl
  have hjh : jsonHead bigE
      = "\x7b\x22id\x22:\x22" ++ bigE.id
        ++ "\x22,\x22message\x22:\x22" ++ bigE.message
        ++ "\x22,\x22source\x22:\x22" ++ bigE.source
        ++ "\x22,\x22entry_type\x22:" ++ toString bigE.type
        ++ ",\x22level\x22:" ++ toString bigE.level
        ++ ",\x22timestamp\x22:" ++ toString bigE.timestamp := rfl
  have hm : bigE.message.length = 4100 := by
    show (List.replicate 4100 'a').length = 4100
    exact List.length_replicate 4100 'a'
  rw [hjf, hjh]
  simp only [String.length_append]
  omega

/-- Claim C2 as stated is false: an entry whose rendering exceeds the
4095 characters that fit in the 4096-byte buffer still produces output
(the encoder has no exhaustion check; `snprintf` silently truncates, so
no encode failure is signalled). -/
theorem claim_C2_counterexample :
    4095 < (jsonFull bigE none).length ∧ entry_to_json bigE none ≠ none := by
  refine ⟨big_overflow, ?_⟩
  rw [entry_to_json_eq_take]
  exact Option.some_ne_none _

/-- Claim C2 (amended): the encoder signals no failure when the backing
buffer is exhausted; it returns the rendering truncated to the 4095
characters that fit (the out-of-bounds continuation writes of the C code
being undefined behaviour, modelled as dropped), and returns no output
only on allocation failure. -/
theorem claim_C2 (e : Entry) (s : Option String)
    (h : 4095 < (jsonFull e s).length) :
    entry_to_json e s ≠ none
    ∧ entry_to_json e s = some (strTake (jsonFull e s) 4095)
    ∧ (strTake (jsonFull e s) 4095).length = 4095 := by
  refine ⟨?_, entry_to_json_eq_take e s, ?_⟩
  · rw [entry_to_json_eq_take]
    exact Option.some_ne_none _
  · rw [strTake_length]
    omega

theorem claim_C2_witness :
    entry_to_json bigE none ≠ none
    ∧ entry_to_json bigE none = some (strTake (jsonFull bigE none) 4095)
    ∧ (strTake (jsonFull bigE none) 4095).length = 4095 :=
  claim_C2 bigE none big_overflow

/-- An entry holding four labels in arrays of capacity four: the next
`add_label` takes the growth path. -/
def lsFour : LabelsState :=
  ⟨some ["k1", "k2", "k3", "k4"], some ["v1", "v2", "v3", "v4"], 4, 4⟩

/-- Claim C3 names a code bug: on the growth path, when the keys
`realloc` succeeds and the values `realloc` fails, the cleanup
`free(new_keys)` releases the moved keys array whose old block `realloc`
already freed, so the call returns `LOGFLUX_ERROR_MEMORY` with the
entry's keys pointer dangling — the previously stored label sequence is
not intact. -/
theorem claim_C3_bug :
    logflux_entry_add_label (some lsFour) (some "k5") (some "v5")
        ⟨true, false, true, true⟩
      = (LError.memory, some ⟨none, some ["v1", "v2", "v3", "v4"], 4, 4⟩)
    ∧ (some (⟨none, some ["v1", "v2", "v3", "v4"], 4, 4⟩ : LabelsState)
        ≠ some lsFour) := by
  constructor
  · rfl
  · decide

/-- Claim C5: `send_entry` on a client that is not connected returns
`NotConnected` for every entry and every transport behaviour, and hands
nothing to the socket. -/
theorem claim_C5 (c : Client) (e : Entry) (io : String → Bool)
    (hconn : c.connected = false) :
    logflux_client_send_entry (some c) (some e) io = (LError.notConnected, []) := by
  show (if c.connected = false then (LError.notConnected, ([] : List String))
        else match entry_to_json e (entrySecret c.config) with
          | none => (LError.memory, [])
          | some json =>
            (if io (json ++ "\n") then LError.ok else LError.connection, [json ++ "\n"]))
      = _
  rw [hconn]
  simp

theorem claim_C5_witness :
    logflux_client_send_entry (some cUnx) (some eW) (fun _ => true)
      = (LError.notConnected, []) :=
  claim_C5 cUnx eW (fun _ => true) rfl

/-- Claim C6: `connect` on an already-connected client returns success at
once and leaves the client unchanged (same descriptor, still connected),
whatever the operating system would have answered. -/
theorem claim_C6 (c : Client) (os : NetOracle) (hconn : c.connected = true) :
    logflux_client_connect (some c) os = (LError.ok, some c) := by
  show (if c.connected then (LError.ok, some c)
        else if os.res = LError.ok then
          (LError.ok, some { c with socket_fd := os.fd, connected := true })
        else (os.res, some { c with socket_fd := -1 }))
      = _
  rw [hconn]
  simp

theorem claim_C6_witness :
    logflux_client_connect (some cTcp) ⟨LError.connection, 9⟩ = (LError.ok, some cTcp) :=
  claim_C6 cTcp ⟨LError.connection, 9⟩ rfl

/-- Entries and a connected Unix client for exercising the batch loop. -/
def eA : Entry := ⟨"u1", "m1", "c-sdk", 6, 1, 0, []⟩

def eB : Entry := ⟨"u2", "m2", "c-sdk", 6, 1, 0, []⟩

def cU : Client := ⟨⟨ConnType.unix, "/tmp/s", "", 0, "", 10000, 3, 1000⟩, 4, true⟩

/-- A transport that accepts only the first entry's payload. -/
def ioPass1 : String → Bool := fun s => s == jsonFull eA none ++ "\n"

/-- Claim C4: `send_batch` rejects an absent client, an absent entries
array and a zero count with `InvalidParam`; otherwise it sends the
entries in array order through `send_entry`, stops at the first failing
entry returning that entry's error — the payloads handed to the socket
are exactly those of the entries up to and including the failing one —
and returns success exactly when every entry succeeds. -/
theorem claim_C4 (c : Client) (es : List Entry) (io : String → Bool) (k : Nat)
    (hconn : c.connected = true)
    (hk : k < es.length)
    (hprev : ∀ e ∈ es.take k,
      (logflux_client_send_entry (some c) (some e) io).1 = LError.ok)
    (hfail : (logflux_client_send_entry (some c) (some (es.get ⟨k, hk⟩)) io).1
      ≠ LError.ok) :
    logflux_client_send_batch (some c) (some es) io
        = ((logflux_client_send_entry (some c) (some (es.get ⟨k, hk⟩)) io).1,
           (es.take (k + 1)).flatMap
             fun e => (logflux_client_send_entry (some c) (some e) io).2)
    ∧ logflux_client_send_batch none (some es) io = (LError.invalidParam, [])
    ∧ logflux_client_send_batch (some c) none io = (LError.invalidParam, [])
    ∧ logflux_client_send_batch (some c) (some []) io = (LError.invalidParam, [])
    ∧ (∀ es2 : List Entry, es2 ≠ [] →
        (∀ e ∈ es2, (logflux_client_send_entry (some c) (some e) io).1 = LError.ok) →
        logflux_client_send_batch (some c) (some es2) io
          = (LError.ok,
             es2.flatMap fun e => (logflux_client_send_entry (some c) (some e) io).2)) := by
  have hne : es.length ≠ 0 := by omega
  refine ⟨?_, rfl, rfl, rfl, ?_⟩
  · show (if es.length = 0 then (LError.invalidParam, ([] : List String))
          else if c.connected = false then (LError.notConnected, [])
          else sendBatchLoop c io es) = _
    rw [if_neg hne, hconn]
    simpa using sendBatchLoop_fail c io es k hk hprev hfail
  · intro es2 hne2 hok
    show (if es2.length = 0 then (LError.invalidParam, ([] : List String))
          else if c.connected = false then (LError.notConnected, [])
          else sendBatchLoop c io es2) = _
    rw [if_neg (by simpa using hne2), hconn]
    simpa using sendBatchLoop_ok c io es2 hok

set_option maxRecDepth 40000 in
theorem claim_C4_witness :
    logflux_client_send_batch (some cU) (some [eA, eB]) ioPass1
      = (LError.connection,
         [jsonFull eA none ++ "\n", jsonFull eB none ++ "\n"]) := by
  have h := (claim_C4 cU [eA, eB] ioPass1 1 rfl (by decide) (by decide) (by decide)).1
  exact h.trans (by decide)

/-- Claim C7: for every non-absent message, when the constructor's
allocations succeed `logflux_entry_new` yields an entry whose id is the
generated uuid, whose message is the given message, whose source is the
fixed SDK default `"c-sdk"`, whose level is Info (6) and whose type is
Log (1); if the message is absent or any allocation fails, no partially
initialized entry is returned. -/
theorem claim_C7 (m : String) (a : EntryAlloc) (now : Int) (u : String)
    (hcal : a.calloc_ok = true) (huuid : a.uuid = some u)
    (hmsg : a.msg_ok = true) (hsrc : a.src_ok = true) :
    logflux_entry_new (some m) a now
        = some { id := u, message := m, source := "c-sdk", level := 6, type := 1,
                 timestamp := now, labels := [] }
    ∧ (∀ a2 : EntryAlloc,
        a2.calloc_ok = false ∨ a2.uuid = none ∨ a2.msg_ok = false ∨ a2.src_ok = false →
        logflux_entry_new (some m) a2 now = none)
    ∧ logflux_entry_new none a now = none := by
  refine ⟨?_, ?_, rfl⟩
  · simp [logflux_entry_new, hcal, huuid, hmsg, hsrc]
  · intro a2 h
    obtain ⟨cal, uu, mo, so⟩ := a2
    simp only [logflux_entry_new]
    cases cal <;> cases uu <;> cases mo <;> cases so <;> simp_all

theorem claim_C7_witness :
    logflux_entry_new (some "hello") ⟨true, some "uid-1234", true, true⟩ 1700000000
        = some { id := "uid-1234", message := "hello", source := "c-sdk", level := 6,
                 type := 1, timestamp := 1700000000, labels := [] }
    ∧ (∀ a2 : EntryAlloc,
        a2.calloc_ok = false ∨ a2.uuid = none ∨ a2.msg_ok = false ∨ a2.src_ok = false →
        logflux_entry_new (some "hello") a2 1700000000 = none)
    ∧ logflux_entry_new none ⟨true, some "uid-1234", true, true⟩ 1700000000 = none :=
  claim_C7 "hello" ⟨true, some "uid-1234", true, true⟩ 1700000000 "uid-1234"
    rfl rfl rfl rfl

/-- Claim C8: `set_level` rejects an absent entry and any level outside
the 8 severities 0..7 with `InvalidParam` (leaving the entry untouched),
and for every in-range level on a present entry it succeeds and stores
that level. -/
theorem claim_C8 (e : Entry) (level : Int) :
    logflux_entry_set_level none level = (LError.invalidParam, none)
    ∧ ((level < 0 ∨ 7 < level) →
        logflux_entry_set_level (some e) level = (LError.invalidParam, some e))
    ∧ ((0 ≤ level ∧ level ≤ 7) →
        logflux_entry_set_level (some e) level
          = (LError.ok, some { e with level := level })) := by
  refine ⟨rfl, ?_, ?_⟩
  · intro h
    show (if level < 0 ∨ 7 < level then (LError.invalidParam, some e)
          else (LError.ok, some { e with level := level })) = _
    rw [if_pos h]
  · intro h
    show (if level < 0 ∨ 7 < level then (LError.invalidParam, some e)
          else (LError.ok, some { e with level := level })) = _
    rw [if_neg (by omega)]

theorem claim_C8_witness :
    logflux_entry_set_level (some eW) 9 = (LError.invalidParam, some eW)
    ∧ logflux_entry_set_level (some eW) 0 = (LError.ok, some { eW with level := 0 }) :=
  ⟨(claim_C8 eW 9).2.1 (by decide), (claim_C8 eW 0).2.2 (by decide)⟩

/-- Claim C9: for a socket path or host longer than 255 bytes the Unix
and TCP factories still succeed, storing exactly the first 255 bytes of
the string in the configuration (the `strncpy` bound), reporting no
error at construction time. -/
theorem claim_C9 (p h : String) (port : Nat) (loadedSecret : String)
    (hp : 255 < p.length) (hh : 255 < h.length) (hport : port ≠ 0) :
    (∃ c, logflux_client_new_unix (some p) = some c
        ∧ c.config.socket_path = strTake p 255 ∧ c.config.socket_path.length = 255)
    ∧ (∃ c, logflux_client_new_tcp (some h) port loadedSecret = some c
        ∧ c.config.host = strTake h 255 ∧ c.config.host.length = 255) := by
  constructor
  · refine ⟨_, rfl, rfl, ?_⟩
    show (strncpy255 p).length = 255
    rw [show strncpy255 p = strTake p 255 from rfl, strTake_length]
    omega
  · have hred : logflux_client_new_tcp (some h) port loadedSecret
        = some { config := { connection_type := ConnType.tcp, socket_path := "",
                             host := strncpy255 h, port := port,
                             shared_secret := loadedSecret, timeout_ms := 10000,
                             retry_count := 3, retry_delay_ms := 1000 },
                 socket_fd := -1, connected := false } := by
      show (if port = 0 then (none : Option Client)
            else some { config := { connection_type := ConnType.tcp, socket_path := "",
                                    host := strncpy255 h, port := port,
                                    shared_secret := loadedSecret, timeout_ms := 10000,
                                    retry_count := 3, retry_delay_ms := 1000 },
                        socket_fd := -1, connected := false })
          = some { config := { connection_type := ConnType.tcp, socket_path := "",
                               host := strncpy255 h, port := port,
                               shared_secret := loadedSecret, timeout_ms := 10000,
                               retry_count := 3, retry_delay_ms := 1000 },
                   socket_fd := -1, connected := false }
      rw [if_neg hport]
    refine ⟨_, hred, rfl, ?_⟩
    show (strncpy255 h).length = 255
    rw [show strncpy255 h = strTake h 255 from rfl, strTake_length]
    omega

/-- A 256-character socket path / host. -/
def longName : String := String.mk (List.replicate 256 'a')

theorem claim_C9_witness :
    (∃ c, logflux_client_new_unix (some longName) = some c
        ∧ c.config.socket_path = strTake longName 255
        ∧ c.config.socket_path.length = 255)
    ∧ (∃ c, logflux_client_new_tcp (some longName) 8080 "" = some c
        ∧ c.config.host = strTake longName 255 ∧ c.config.host.length = 255) :=
  claim_C9 longName longName 8080 ""
    (by rw [show longName.length = (List.replicate 256 'a').length from rfl,
          List.length_replicate]; omega)
    (by rw [show longName.length = (List.replicate 256 'a').length from rfl,
          List.length_replicate]; omega)
    (by decide)

/-- Claim C10: `new_config` copies the supplied configuration verbatim —
no default timeout or retry values, no secret auto-load, a zero
`timeout_ms` passes through — and a TCP client built from a configuration
with an empty shared secret transmits payloads with no `shared_secret`
field. -/
theorem claim_C10 (cfg : Config) (e : Entry) (io : String → Bool) (fd : Int)
    (hsec : cfg.shared_secret = "")
    (hct : cfg.connection_type = ConnType.tcp)
    (hfit : (jsonFull e (entrySecret cfg)).length ≤ 4095) :
    logflux_client_new_config (some cfg)
        = some { config := cfg, socket_fd := -1, connected := false }
    ∧ (logflux_client_new_config (some cfg)).map (fun c => c.config.timeout_ms)
        = some cfg.timeout_ms
    ∧ secretField (entrySecret cfg) = ""
    ∧ (logflux_client_send_entry
          (some { config := cfg, socket_fd := fd, connected := true }) (some e) io).2
        = [jsonHead e ++ labelsField e.labels ++ "\x7d" ++ "\n"] := by
  have hsf : secretField (entrySecret cfg) = "" := by
    simp [entrySecret, hct, secretField, hsec]
  refine ⟨rfl, rfl, hsf, ?_⟩
  rw [send_entry_trace { config := cfg, socket_fd := fd, connected := true } e io rfl hfit]
  show [jsonFull e (entrySecret cfg) ++ "\n"] = _
  rw [show jsonFull e (entrySecret cfg)
        = jsonHead e ++ secretField (entrySecret cfg) ++ labelsField e.labels ++ "\x7d"
      from rfl,
    hsf, String.append_empty]

/-- A TCP configuration with an empty secret and zero policy values. -/
def cfg0 : Config := ⟨ConnType.tcp, "", "127.0.0.1", 9, "", 0, 0, 0⟩

set_option maxRecDepth 40000 in
theorem claim_C10_witness :
    logflux_client_new_config (some cfg0)
        = some { config := cfg0, socket_fd := -1, connected := false }
    ∧ (logflux_client_new_config (some cfg0)).map (fun c => c.config.timeout_ms)
        = some cfg0.timeout_ms
    ∧ secretField (entrySecret cfg0) = ""
    ∧ (logflux_client_send_entry
          (some { config := cfg0, socket_fd := 3, connected := true }) (some eW)
          (fun _ => true)).2
        = [jsonHead eW ++ labelsField eW.labels ++ "\x7d" ++ "\n"] :=
  claim_C10 cfg0 eW (fun _ => true) 3 rfl rfl (by decide)

end LogFlux
